import Mathlib

/-!
Verification development for the Notion-Bot repository core:
the time-expression parser (`src/time_utils.py`, class TimeParser and
`parse_time_input`), the recurrence calculator
(`calculate_next_reminder_time`), and the reminder scheduler loops
(`src/bot_modular.py` and `src/bot_modular_old.py`, `reminder_scheduler`)
over the reminder store (`src/database.py`).

Python datetimes are modelled as records of naturals (year, month, day,
hour, minute, second, microsecond); the single timezone used by the code
(Europe/Moscow, via `pytz.localize`) is dropped, since every datetime in
the modelled flows lives in that one zone and `localize` only attaches it.
`timedelta` addition is modelled by minute arithmetic plus day-successor
iteration (extensionally equal to CPython's ordinal-based implementation on
valid dates); `dateutil.relativedelta` month/year addition is modelled by
its normalize-then-clamp algorithm.  Fallible Python code (ValueError from
`datetime(...)` / `time.replace(...)`) is modelled with `Except Unit`.
-/

/-- Leap-year test, as Python `calendar.isleap`. -/
def isLeap (y : Nat) : Bool :=
  y % 4 == 0 && (y % 100 != 0 || y % 400 == 0)

/-- Number of days of month `m` of year `y` (`calendar.monthrange(y, m)[1]`);
month 0 or months above 12 are given 0 days (such months are never produced
by the modelled code). -/
def daysInMonth (y m : Nat) : Nat :=
  match m with
  | 1 => 31
  | 2 => if isLeap y then 29 else 28
  | 3 => 31
  | 4 => 30
  | 5 => 31
  | 6 => 30
  | 7 => 31
  | 8 => 31
  | 9 => 30
  | 10 => 31
  | 11 => 30
  | 12 => 31
  | _ => 0

/-- A calendar date (proleptic Gregorian, as Python `datetime.date`). -/
structure PyDate where
  year : Nat
  month : Nat
  day : Nat
deriving DecidableEq

/-- A Python `datetime.datetime` value (naive; the single pytz zone of the
source is dropped, see the file comment). -/
structure PyDateTime where
  year : Nat
  month : Nat
  day : Nat
  hour : Nat
  minute : Nat
  second : Nat
  microsecond : Nat
deriving DecidableEq

/-- The date fields of a datetime (`datetime.date()`). -/
def PyDateTime.dateOf (t : PyDateTime) : PyDate :=
  ⟨t.year, t.month, t.day⟩

/-- Validity of a date, exactly the range `datetime.date` enforces. -/
def PyDate.ValidD (d : PyDate) : Prop :=
  1 ≤ d.year ∧ 1 ≤ d.month ∧ d.month ≤ 12 ∧ 1 ≤ d.day ∧ d.day ≤ daysInMonth d.year d.month

instance (d : PyDate) : Decidable d.ValidD := by
  unfold PyDate.ValidD; infer_instance

/-- Validity of a datetime, the range `datetime.datetime` enforces. -/
def PyDateTime.Valid (t : PyDateTime) : Prop :=
  t.dateOf.ValidD ∧ t.hour ≤ 23 ∧ t.minute ≤ 59 ∧ t.second ≤ 59 ∧ t.microsecond ≤ 999999

instance (t : PyDateTime) : Decidable t.Valid := by
  unfold PyDateTime.Valid; infer_instance

/-- Days in all years before year `y` (so `daysBeforeYear 1 = 0`);
the year part of Python `date.toordinal`. -/
def daysBeforeYear (y : Nat) : Nat :=
  365 * (y - 1) + (y - 1) / 4 + (y - 1) / 400 - (y - 1) / 100

/-- Cumulative days before month `m` in a non-leap year; CPython's
`_DAYS_BEFORE_MONTH` table. -/
def monthTable (m : Nat) : Nat :=
  match m with
  | 1 => 0
  | 2 => 31
  | 3 => 59
  | 4 => 90
  | 5 => 120
  | 6 => 151
  | 7 => 181
  | 8 => 212
  | 9 => 243
  | 10 => 273
  | 11 => 304
  | 12 => 334
  | _ => 0

/-- Days in all months of year `y` strictly before month `m`;
the month part of Python `date.toordinal` (`_days_before_month`). -/
def daysBeforeMonth (y m : Nat) : Nat :=
  monthTable m + (if 2 < m ∧ isLeap y then 1 else 0)

/-- Python `date.toordinal`: day number with 0001-01-01 as day 1. -/
def PyDate.toOrdinal (d : PyDate) : Nat :=
  daysBeforeYear d.year + daysBeforeMonth d.year d.month + d.day

/-- Ordinal of the date fields of a datetime. -/
def PyDateTime.toOrdinalDT (t : PyDateTime) : Nat :=
  t.dateOf.toOrdinal

/-- The calendar successor of a date.  CPython implements
`date + timedelta(days=1)` through `fromordinal (toordinal + 1)`; on valid
dates that is exactly this carry step. -/
def nextDate (d : PyDate) : PyDate :=
  if d.day < daysInMonth d.year d.month then ⟨d.year, d.month, d.day + 1⟩
  else if d.month < 12 then ⟨d.year, d.month + 1, 1⟩
  else ⟨d.year + 1, 1, 1⟩

/-- `date + timedelta(days=n)` for `n ≥ 0`, as iterated day successor. -/
def addDaysDate (d : PyDate) : Nat → PyDate
  | 0 => d
  | n + 1 => nextDate (addDaysDate d n)

/-- `datetime + timedelta` for a nonnegative whole number of minutes:
CPython normalizes the sum into days carried into the date part plus a
time-of-day.  All spans the modelled code adds (minutes, hours, days,
weeks) are whole minutes; seconds and microseconds are untouched. -/
def addMinutes (t : PyDateTime) (n : Nat) : PyDateTime :=
  let tot := t.hour * 60 + t.minute + n
  let d := addDaysDate t.dateOf (tot / 1440)
  ⟨d.year, d.month, d.day, (tot % 1440) / 60, tot % 60, t.second, t.microsecond⟩

/-- `datetime + relativedelta(months=n)`: dateutil normalizes
`month - 1 + n` by `divmod` into the year and month, then clamps the day to
the last day of the resulting month. -/
def addMonths (t : PyDateTime) (n : Nat) : PyDateTime :=
  let idx := t.year * 12 + (t.month - 1) + n
  let y := idx / 12
  let m := idx % 12 + 1
  ⟨y, m, min t.day (daysInMonth y m), t.hour, t.minute, t.second, t.microsecond⟩

/-- `datetime + relativedelta(years=n)`: dateutil adds to the year and
clamps the day to the last day of the (unchanged) month in the new year. -/
def addYears (t : PyDateTime) (n : Nat) : PyDateTime :=
  let y := t.year + n
  ⟨y, t.month, min t.day (daysInMonth y t.month), t.hour, t.minute, t.second, t.microsecond⟩

/-- ASCII plus Russian lowercase mapping of one character, after Python
`str.lower` restricted to the alphabets the source vocabulary uses. -/
def pyLowerChar (c : Char) : Char :=
  if 'A' ≤ c ∧ c ≤ 'Z' then Char.ofNat (c.toNat + 32)
  else if 'А' ≤ c ∧ c ≤ 'Я' then Char.ofNat (c.toNat + 32)
  else if c = 'Ё' then 'ё'
  else c

/-- Python `str.lower` over a whole string (restricted as `pyLowerChar`). -/
def pyLowerStr (s : String) : String :=
  ⟨s.data.map pyLowerChar⟩

/-- The repeat-kind strings recognized by a dedicated branch of
`calculate_next_reminder_time` (everything else falls to its final
`else`). -/
def recognizedRepeatKind (s : String) : Bool :=
  s ∈ ["hourly", "hours", "daily", "day", "days", "weekly", "week", "weeks",
       "monthly", "month", "months", "yearly", "year", "years", "annually"]

/-- The `repeat_type or 'none'` coercion of the source (None and the empty
string both fall back to the literal `'none'`). -/
def repeatKindOrNone (rt : Option String) : String :=
  match rt with
  | none => "none"
  | some s => if s = "" then "none" else s

/-- The interval normalization at the top of `calculate_next_reminder_time`:
`if repeat_interval is None or repeat_interval < 1: repeat_interval = 1`. -/
def normInterval (ri : Option Int) : Nat :=
  match ri with
  | none => 1
  | some n => if n < 1 then 1 else n.toNat

/-- The branch chain of `calculate_next_reminder_time` after its input
normalization: `rt` is the lowered kind, `iv` the normalized interval.
hourly = 60 minutes, daily = 1440, weekly = 10080, matching the
`timedelta` the source builds in each branch. -/
def repeatDelta (t : PyDateTime) (rt : String) (iv : Nat) : PyDateTime :=
  if rt ∈ ["hourly", "hours"] then addMinutes t (60 * iv)
  else if rt ∈ ["daily", "day", "days"] then addMinutes t (1440 * iv)
  else if rt ∈ ["weekly", "week", "weeks"] then addMinutes t (10080 * iv)
  else if rt ∈ ["monthly", "month", "months"] then addMonths t iv
  else if rt ∈ ["yearly", "year", "years", "annually"] then addYears t iv
  else addMinutes t (1440 * iv)

/-- src/time_utils.py `calculate_next_reminder_time(current_time,
repeat_type, repeat_interval)`.  The trailing try/except of the source only
re-runs the same addition on a tz-stripped copy when pytz arithmetic
raises, which cannot happen in this naive model, so the plain addition is
the whole function here. -/
def calculate_next_reminder_time (current_time : PyDateTime)
    (repeat_type : Option String) (repeat_interval : Option Int) : PyDateTime :=
  repeatDelta current_time (pyLowerStr (repeatKindOrNone repeat_type))
    (normInterval repeat_interval)

/-- Strict chronological order on datetimes (Python datetime comparison is
field-lexicographic in this order). -/
def dtLt (a b : PyDateTime) : Prop :=
  a.year < b.year ∨ (a.year = b.year ∧ (a.month < b.month ∨ (a.month = b.month ∧
    (a.day < b.day ∨ (a.day = b.day ∧ (a.hour < b.hour ∨ (a.hour = b.hour ∧
    (a.minute < b.minute ∨ (a.minute = b.minute ∧ (a.second < b.second ∨
    (a.second = b.second ∧ a.microsecond < b.microsecond)))))))))))

instance (a b : PyDateTime) : Decidable (dtLt a b) := by
  unfold dtLt; infer_instance

/-- Chronological order on datetimes; this is also the order the reminder
store's SQL comparison on stored timestamp text implements. -/
def dtLe (a b : PyDateTime) : Prop :=
  dtLt a b ∨ a = b

instance (a b : PyDateTime) : Decidable (dtLe a b) := by
  unfold dtLe; infer_instance

/-- Absolute minute count of a datetime (minutes since the day before
0001-01-01, ignoring seconds); used to state what the day/hour/week
arithmetic of the code means in linear time. -/
def absMinutes (t : PyDateTime) : Nat :=
  1440 * t.toOrdinalDT + 60 * t.hour + t.minute

/-- Month index of a datetime counted from year 0 (12 per year); used to
state what calendar-month addition means. -/
def monthIndex (t : PyDateTime) : Nat :=
  12 * t.year + (t.month - 1)

/-! Arithmetic facts about the calendar core. -/

theorem isLeap_iff (y : Nat) :
    isLeap y = true ↔ (y % 4 = 0 ∧ (y % 100 ≠ 0 ∨ y % 400 = 0)) := by
  unfold isLeap
  simp [Bool.and_eq_true, Bool.or_eq_true]

theorem daysInMonth_pos (y m : Nat) (h1 : 1 ≤ m) (hm : m ≤ 12) :
    1 ≤ daysInMonth y m := by
  interval_cases m <;> simp [daysInMonth] <;> split <;> omega

set_option maxHeartbeats 2000000 in
theorem daysBeforeYear_succ (y : Nat) (hy : 1 ≤ y) :
    daysBeforeYear (y + 1) =
      daysBeforeYear y + (if isLeap y then 366 else 365) := by
  have hiff := isLeap_iff y
  unfold daysBeforeYear
  rcases h : isLeap y with _ | _
  · simp only [h, Bool.false_eq_true, if_false]
    simp only [h, Bool.false_eq_true, false_iff] at hiff
    push_neg at hiff
    omega
  · have hred : (if (true = true) then 366 else 365) = 366 := rfl
    rw [hred]
    rw [hiff] at h
    omega

theorem daysBeforeMonth_step (y m : Nat) (h1 : 1 ≤ m) (h12 : m ≤ 11) :
    daysBeforeMonth y (m + 1) = daysBeforeMonth y m + daysInMonth y m := by
  unfold daysBeforeMonth
  interval_cases m <;>
    rcases h : isLeap y with _ | _ <;>
    simp [h, monthTable, daysInMonth]

theorem daysBeforeMonth_twelve_plus (y : Nat) :
    daysBeforeMonth y 12 + 31 = 365 + (if isLeap y then 1 else 0) := by
  unfold daysBeforeMonth
  rcases h : isLeap y with _ | _ <;> simp [h, monthTable]

theorem pydate_eta (d : PyDate) : (⟨d.year, d.month, d.day⟩ : PyDate) = d := rfl

theorem validD_mk (y m d : Nat) :
    (PyDate.mk y m d).ValidD ↔
      (1 ≤ y ∧ 1 ≤ m ∧ m ≤ 12 ∧ 1 ≤ d ∧ d ≤ daysInMonth y m) := Iff.rfl

theorem toOrdinal_mk (y m d : Nat) :
    (PyDate.mk y m d).toOrdinal = daysBeforeYear y + daysBeforeMonth y m + d := rfl

theorem toOrdinal_nextDate (d : PyDate) (h : d.ValidD) :
    (nextDate d).toOrdinal = d.toOrdinal + 1 := by
  obtain ⟨hy, hm1, hm12, hd1, hd2⟩ := h
  have hord : d.toOrdinal = daysBeforeYear d.year + daysBeforeMonth d.year d.month + d.day := rfl
  unfold nextDate
  split
  · rw [toOrdinal_mk, hord]
    omega
  · split
    · rename_i hlt hmm
      rw [toOrdinal_mk, hord]
      have hstep := daysBeforeMonth_step d.year d.month hm1 (by omega)
      omega
    · rename_i hlt hmm
      have hm : d.month = 12 := by omega
      have hdim : daysInMonth d.year 12 = 31 := rfl
      rw [hm] at hlt hd2
      rw [hdim] at hlt hd2
      rw [toOrdinal_mk, hord, hm]
      rw [daysBeforeYear_succ d.year hy]
      have h12 := daysBeforeMonth_twelve_plus d.year
      have h1 : daysBeforeMonth (d.year + 1) 1 = 0 := rfl
      rw [h1]
      rcases hl : isLeap d.year with _ | _ <;> simp only [hl] at h12 ⊢ <;>
        simp at h12 ⊢ <;> omega

theorem validD_nextDate (d : PyDate) (h : d.ValidD) : (nextDate d).ValidD := by
  obtain ⟨hy, hm1, hm12, hd1, hd2⟩ := h
  unfold nextDate
  split
  · rename_i hlt
    exact (validD_mk _ _ _).mpr ⟨hy, hm1, hm12, by omega, by omega⟩
  · split
    · rename_i hlt hmm
      refine (validD_mk _ _ _).mpr ⟨hy, by omega, by omega, by omega, ?_⟩
      exact daysInMonth_pos d.year (d.month + 1) (by omega) (by omega)
    · refine (validD_mk _ _ _).mpr ⟨by omega, by omega, by omega, by omega, ?_⟩
      simp [daysInMonth]

theorem validD_addDaysDate (d : PyDate) (n : Nat) (h : d.ValidD) :
    (addDaysDate d n).ValidD := by
  induction n with
  | zero => exact h
  | succ k ih => exact validD_nextDate _ ih

theorem toOrdinal_addDaysDate (d : PyDate) (n : Nat) (h : d.ValidD) :
    (addDaysDate d n).toOrdinal = d.toOrdinal + n := by
  induction n with
  | zero => rfl
  | succ k ih =>
    show (nextDate (addDaysDate d k)).toOrdinal = _
    rw [toOrdinal_nextDate _ (validD_addDaysDate d k h), ih]
    omega

theorem absMinutes_addMinutes (t : PyDateTime) (n : Nat) (h : t.Valid) :
    absMinutes (addMinutes t n) = absMinutes t + n := by
  obtain ⟨hd, hh, hmin, hs, hus⟩ := h
  have hmk : ({ year := t.year, month := t.month, day := t.day } : PyDate) = t.dateOf := rfl
  unfold absMinutes addMinutes PyDateTime.toOrdinalDT PyDateTime.dateOf
  dsimp only
  rw [hmk, toOrdinal_addDaysDate _ _ hd]
  omega

theorem dateOf_addMinutes_valid (t : PyDateTime) (n : Nat) (h : t.dateOf.ValidD) :
    (addMinutes t n).dateOf.ValidD := by
  have hmk : ({ year := t.year, month := t.month, day := t.day } : PyDate) = t.dateOf := rfl
  unfold addMinutes PyDateTime.dateOf
  dsimp only
  rw [hmk]
  exact validD_addDaysDate _ _ h

theorem valid_addMinutes (t : PyDateTime) (n : Nat) (h : t.Valid) :
    (addMinutes t n).Valid := by
  obtain ⟨hd, hh, hmin, hs, hus⟩ := h
  refine ⟨dateOf_addMinutes_valid t n hd, ?_, ?_, ?_, ?_⟩ <;>
    unfold addMinutes <;> dsimp only <;> omega

theorem dtLt_trans (a b c : PyDateTime) (h1 : dtLt a b) (h2 : dtLt b c) :
    dtLt a c := by
  unfold dtLt at *
  omega

theorem dtLe_trans (a b c : PyDateTime) (h1 : dtLe a b) (h2 : dtLe b c) :
    dtLe a c := by
  rcases h1 with h1 | rfl
  · rcases h2 with h2 | rfl
    · exact Or.inl (dtLt_trans a b c h1 h2)
    · exact Or.inl h1
  · exact h2

/-! Behaviour of the recurrence calculator by branch. -/

theorem calc_monthly (t : PyDateTime) (ri : Option Int) :
    calculate_next_reminder_time t (some "monthly") ri =
      addMonths t (normInterval ri) := rfl

theorem calc_yearly (t : PyDateTime) (ri : Option Int) :
    calculate_next_reminder_time t (some "yearly") ri =
      addYears t (normInterval ri) := rfl

theorem calc_hourly (t : PyDateTime) (ri : Option Int) :
    calculate_next_reminder_time t (some "hourly") ri =
      addMinutes t (60 * normInterval ri) := rfl

theorem calc_hours (t : PyDateTime) (ri : Option Int) :
    calculate_next_reminder_time t (some "hours") ri =
      addMinutes t (60 * normInterval ri) := rfl

theorem normInterval_pos_int (n : Int) (hn : 1 ≤ n) :
    normInterval (some n) = n.toNat := by
  show (if n < 1 then 1 else n.toNat) = n.toNat
  rw [if_neg (by omega)]

theorem repeatDelta_unrecognized (t : PyDateTime) (s : String) (iv : Nat)
    (hk : recognizedRepeatKind s = false) :
    repeatDelta t s iv = addMinutes t (1440 * iv) := by
  have hnot : ¬ (s ∈ ["hourly", "hours", "daily", "day", "days", "weekly",
      "week", "weeks", "monthly", "month", "months", "yearly", "year",
      "years", "annually"]) := by
    intro hmem
    rw [show recognizedRepeatKind s = decide (s ∈ _) from rfl] at hk
    simp only [decide_eq_false_iff_not] at hk
    exact hk hmem
  simp only [List.mem_cons, List.mem_singleton, List.not_mem_nil] at hnot
  push_neg at hnot
  obtain ⟨e1, e2, e3, e4, e5, e6, e7, e8, e9, e10, e11, e12, e13, e14, e15⟩ := hnot
  unfold repeatDelta
  rw [if_neg (by simp [e1, e2]), if_neg (by simp [e3, e4, e5]),
    if_neg (by simp [e6, e7, e8]), if_neg (by simp [e9, e10, e11]),
    if_neg (by simp [e12, e13, e14, e15])]

/-- The unrecognized-kind fallback of `calculate_next_reminder_time`:
any kind outside the recognized set (after the `or 'none'` coercion and
lowering) falls to the final `else`, day-based addition. -/
theorem calc_unrecognized (t : PyDateTime) (kind : String) (ri : Option Int)
    (hk : recognizedRepeatKind (pyLowerStr kind) = false) :
    calculate_next_reminder_time t (some kind) ri =
      addMinutes t (1440 * normInterval ri) := by
  unfold calculate_next_reminder_time
  by_cases he : kind = ""
  · subst he
    exact repeatDelta_unrecognized t _ _ (by decide)
  · have hco : repeatKindOrNone (some kind) = kind := by
      show (if kind = "" then "none" else kind) = kind
      rw [if_neg he]
    rw [hco]
    exact repeatDelta_unrecognized t _ _ hk

theorem monthIndex_addMonths (t : PyDateTime) (k : Nat) :
    monthIndex (addMonths t k) = monthIndex t + k := by
  unfold monthIndex addMonths
  dsimp only
  omega

/-- C2: for every timestamp and every interval n ≥ 1, the recurrence
calculator's monthly branch adds n calendar months (month index advances by
exactly n) preserving the day-of-month when the target month has it and
clamping to the last valid day otherwise, and the yearly branch adds n
calendar years with the same clamping; in particular Jan 31 + 1 month is
Feb 28 in 2023 and Feb 29 in 2024 (never Mar 2/3), and Feb 29 2024 + 1 year
is Feb 28 2025. -/
theorem C2_monthly_yearly_true_calendar (t : PyDateTime) (n : Int) (hn : 1 ≤ n) :
    monthIndex (calculate_next_reminder_time t (some "monthly") (some n))
        = monthIndex t + n.toNat
    ∧ (calculate_next_reminder_time t (some "monthly") (some n)).day
        = min t.day (daysInMonth
            (calculate_next_reminder_time t (some "monthly") (some n)).year
            (calculate_next_reminder_time t (some "monthly") (some n)).month)
    ∧ (t.day ≤ daysInMonth
          (calculate_next_reminder_time t (some "monthly") (some n)).year
          (calculate_next_reminder_time t (some "monthly") (some n)).month →
        (calculate_next_reminder_time t (some "monthly") (some n)).day = t.day)
    ∧ (calculate_next_reminder_time t (some "monthly") (some n)).hour = t.hour
    ∧ (calculate_next_reminder_time t (some "monthly") (some n)).minute = t.minute
    ∧ (calculate_next_reminder_time t (some "yearly") (some n)).year = t.year + n.toNat
    ∧ (calculate_next_reminder_time t (some "yearly") (some n)).month = t.month
    ∧ (calculate_next_reminder_time t (some "yearly") (some n)).day
        = min t.day (daysInMonth (t.year + n.toNat) t.month)
    ∧ calculate_next_reminder_time ⟨2023, 1, 31, 10, 0, 0, 0⟩ (some "monthly") (some 1)
        = ⟨2023, 2, 28, 10, 0, 0, 0⟩
    ∧ calculate_next_reminder_time ⟨2024, 1, 31, 10, 0, 0, 0⟩ (some "monthly") (some 1)
        = ⟨2024, 2, 29, 10, 0, 0, 0⟩
    ∧ calculate_next_reminder_time ⟨2024, 2, 29, 10, 0, 0, 0⟩ (some "yearly") (some 1)
        = ⟨2025, 2, 28, 10, 0, 0, 0⟩ := by
  have hm := calc_monthly t (some n)
  have hyr := calc_yearly t (some n)
  rw [normInterval_pos_int n hn] at hm hyr
  refine ⟨?_, ?_, ?_, ?_, ?_, ?_, ?_, ?_, by decide, by decide, by decide⟩
  · rw [hm, monthIndex_addMonths]
  · rw [hm]
    unfold addMonths
    dsimp only
  · intro h
    rw [hm] at h ⊢
    unfold addMonths at h ⊢
    dsimp only at h ⊢
    omega
  · rw [hm]; rfl
  · rw [hm]; rfl
  · rw [hyr]; rfl
  · rw [hyr]; rfl
  · rw [hyr]; rfl

theorem C2_witness_jan31 :
    (1 : Int) ≤ 1 ∧
    monthIndex (calculate_next_reminder_time ⟨2023, 1, 31, 10, 0, 0, 0⟩
        (some "monthly") (some 1))
      = monthIndex ⟨2023, 1, 31, 10, 0, 0, 0⟩ + (1 : Int).toNat :=
  ⟨by decide, (C2_monthly_yearly_true_calendar ⟨2023, 1, 31, 10, 0, 0, 0⟩ 1 (by decide)).1⟩

/-- C3 counterexample: with an out-of-range interval (0) and an
unrecognized kind, `calculate_next_reminder_time` does not fail: it
silently substitutes interval 1 and the day-based fallback, returning the
same result as a recognized daily/1 call. -/
theorem C3_counterexample_silent_defaults :
    calculate_next_reminder_time ⟨2024, 1, 15, 10, 0, 0, 0⟩ (some "quarterly") (some 0)
        = ⟨2024, 1, 16, 10, 0, 0, 0⟩
    ∧ calculate_next_reminder_time ⟨2024, 1, 15, 10, 0, 0, 0⟩ (some "quarterly") (some 0)
        = calculate_next_reminder_time ⟨2024, 1, 15, 10, 0, 0, 0⟩ (some "daily") (some 1) := by
  constructor <;> decide

/-- C3 amended: `calculate_next_reminder_time` never fails; an interval
below 1 (or a missing interval) is silently replaced by 1, and an
unrecognized repeat kind silently falls back to day-based addition of the
normalized interval. -/
theorem C3_amended_silent_normalization (t : PyDateTime) (rt : Option String)
    (n : Int) (hn : n < 1) (kind : String)
    (hk : recognizedRepeatKind (pyLowerStr kind) = false) :
    calculate_next_reminder_time t rt (some n)
        = calculate_next_reminder_time t rt (some 1)
    ∧ calculate_next_reminder_time t rt none
        = calculate_next_reminder_time t rt (some 1)
    ∧ (∀ m : Int, calculate_next_reminder_time t (some kind) (some m)
        = addMinutes t (1440 * normInterval (some m))) := by
  have e1 : normInterval (some n) = 1 := by
    show (if n < 1 then 1 else n.toNat) = 1
    rw [if_pos hn]
  have e2 : normInterval (some 1) = 1 := by decide
  have e3 : normInterval (none : Option Int) = 1 := rfl
  refine ⟨?_, ?_, ?_⟩
  · unfold calculate_next_reminder_time
    rw [e1, e2]
  · unfold calculate_next_reminder_time
    rw [e3, e2]
  · intro m
    exact calc_unrecognized t kind (some m) hk

theorem C3_amended_witness :
    (-2 : Int) < 1 ∧
    calculate_next_reminder_time ⟨2024, 1, 15, 10, 0, 0, 0⟩ (some "weekly") (some (-2))
      = calculate_next_reminder_time ⟨2024, 1, 15, 10, 0, 0, 0⟩ (some "weekly") (some 1) :=
  ⟨by decide,
    (C3_amended_silent_normalization ⟨2024, 1, 15, 10, 0, 0, 0⟩ (some "weekly") (-2)
      (by decide) "quarterly" (by decide)).1⟩

/-- C10: the recurrence calculator accepts an hourly kind (strings
`hourly` and `hours`), advancing the timestamp by exactly 60·n minutes for
every interval n ≥ 1, and any unrecognized repeat-kind string falls back to
advancing by n days (1440·n minutes) instead of failing. -/
theorem C10_hourly_and_day_fallback (t : PyDateTime) (n : Int) (kind : String)
    (hv : t.Valid) (hn : 1 ≤ n)
    (hk : recognizedRepeatKind (pyLowerStr kind) = false) :
    absMinutes (calculate_next_reminder_time t (some "hourly") (some n))
        = absMinutes t + 60 * n.toNat
    ∧ absMinutes (calculate_next_reminder_time t (some "hours") (some n))
        = absMinutes t + 60 * n.toNat
    ∧ absMinutes (calculate_next_reminder_time t (some kind) (some n))
        = absMinutes t + 1440 * n.toNat := by
  rw [calc_hourly, calc_hours, calc_unrecognized t kind (some n) hk,
    normInterval_pos_int n hn]
  exact ⟨absMinutes_addMinutes t _ hv, absMinutes_addMinutes t _ hv,
    absMinutes_addMinutes t _ hv⟩

theorem C10_witness :
    PyDateTime.Valid ⟨2024, 5, 15, 10, 30, 0, 0⟩ ∧ (1 : Int) ≤ 2 ∧
    absMinutes (calculate_next_reminder_time ⟨2024, 5, 15, 10, 30, 0, 0⟩
        (some "hourly") (some 2))
      = absMinutes ⟨2024, 5, 15, 10, 30, 0, 0⟩ + 60 * (2 : Int).toNat :=
  ⟨by decide, by decide,
    (C10_hourly_and_day_fallback ⟨2024, 5, 15, 10, 30, 0, 0⟩ 2 "fortnightly"
      (by decide) (by decide) (by decide)).1⟩

/-! The reminder store and the two scheduler loops. -/

/-- A row of the `reminders` table as the schedulers see it
(src/database.py: `repeat_type TEXT DEFAULT 'none'`,
`repeat_interval INTEGER DEFAULT 0`).  `reminder_time` is held as a
datetime; the text serialization round-trip of the store is dropped. -/
structure Reminder where
  id : Nat
  user_id : Nat
  title : String
  content : String
  reminder_time : PyDateTime
  is_active : Bool
  repeat_type : String
  repeat_interval : Int
deriving DecidableEq

/-- src/database.py `Database.get_active_reminders()` without a user filter
(the scheduler's call): rows with `is_active AND reminder_time <=
datetime('now')`.  The `ORDER BY reminder_time` of the source is dropped:
the per-row updates proved about below do not depend on batch order. -/
def get_active_reminders (store : List Reminder) (now : PyDateTime) : List Reminder :=
  store.filter (fun r => r.is_active && decide (dtLe r.reminder_time now))

/-- src/database.py `Database.update_reminder(id, user_id,
is_active=False)`: every row matching id and user gets `is_active`
cleared. -/
def update_set_inactive (store : List Reminder) (rid uid : Nat) : List Reminder :=
  store.map (fun r =>
    if r.id = rid ∧ r.user_id = uid then { r with is_active := false } else r)

/-- `Database.update_reminder(id, user_id, reminder_time=next,
is_active=True)` as the legacy scheduler issues it. -/
def update_rearm (store : List Reminder) (rid uid : Nat) (nt : PyDateTime) :
    List Reminder :=
  store.map (fun r =>
    if r.id = rid ∧ r.user_id = uid then
      { r with reminder_time := nt, is_active := true }
    else r)

/-- The per-reminder body of the `reminder_scheduler` loop of
src/bot_modular.py, folded over the due batch: re-check
`reminder_time <= now` (the code re-reads the clock here; one tick instant
models both reads), attempt the send, and on success deactivate the
reminder; on a send failure the exception is caught and no store update
happens.  `sendOk` is the outcome of `bot.send_message` per reminder. -/
def processDueNew (now : PyDateTime) (sendOk : Reminder → Bool) :
    List Reminder → List Reminder → List Reminder
  | [], store => store
  | r :: rest, store =>
    processDueNew now sendOk rest
      (if dtLe r.reminder_time now then
        (if sendOk r then update_set_inactive store r.id r.user_id else store)
      else store)

/-- One poll iteration of src/bot_modular.py `reminder_scheduler`: fetch
the due batch from the store, then process each row. -/
def reminder_scheduler_tick (store : List Reminder) (now : PyDateTime)
    (sendOk : Reminder → Bool) : List Reminder :=
  processDueNew now sendOk (get_active_reminders store now) store

/-- Python `x or 1` on the stored `repeat_interval` (0 is falsy). -/
def orOne (n : Int) : Int :=
  if n = 0 then 1 else n

/-- The per-reminder body of the legacy `reminder_scheduler` of
src/bot_modular_old.py: send first (a failure is caught and skips the rest
of the body), then rearm through `calculate_next_reminder_time` when the
lowered `repeat_type or 'none'` is not `none`, else deactivate. -/
def processDueOld (sendOk : Reminder → Bool) :
    List Reminder → List Reminder → List Reminder
  | [], store => store
  | r :: rest, store =>
    processDueOld sendOk rest
      (if sendOk r then
        (if pyLowerStr (repeatKindOrNone (some r.repeat_type)) ≠ "none" then
          update_rearm store r.id r.user_id
            (calculate_next_reminder_time r.reminder_time
              (some (pyLowerStr (repeatKindOrNone (some r.repeat_type))))
              (some (orOne r.repeat_interval)))
        else update_set_inactive store r.id r.user_id)
      else store)

/-- One poll iteration of the legacy src/bot_modular_old.py
`reminder_scheduler`. -/
def reminder_scheduler_old_tick (store : List Reminder) (now : PyDateTime)
    (sendOk : Reminder → Bool) : List Reminder :=
  processDueOld sendOk (get_active_reminders store now) store

/-- C1: the claim describes the per-firing update on dispatch success
(deactivate non-repeating, rearm repeating).  The current scheduler in
src/bot_modular.py deactivates every successfully dispatched reminder,
repeating or not: a due daily/1 reminder ends the tick with
`is_active = false` and an untouched `reminder_time`, while the legacy
scheduler of src/bot_modular_old.py performs exactly the claimed update,
advancing `reminder_time` one day and keeping `is_active = true`. -/
theorem C1_new_scheduler_deactivates_repeating :
    reminder_scheduler_tick
        [⟨1, 7, "t", "c", ⟨2024, 5, 15, 9, 0, 0, 0⟩, true, "daily", 1⟩]
        ⟨2024, 5, 15, 10, 0, 0, 0⟩ (fun _ => true)
      = [⟨1, 7, "t", "c", ⟨2024, 5, 15, 9, 0, 0, 0⟩, false, "daily", 1⟩]
    ∧ reminder_scheduler_old_tick
        [⟨1, 7, "t", "c", ⟨2024, 5, 15, 9, 0, 0, 0⟩, true, "daily", 1⟩]
        ⟨2024, 5, 15, 10, 0, 0, 0⟩ (fun _ => true)
      = [⟨1, 7, "t", "c", ⟨2024, 5, 16, 9, 0, 0, 0⟩, true, "daily", 1⟩] := by
  constructor <;> decide

theorem filter_id_map (g : Reminder → Reminder) (qid : Nat)
    (hid : ∀ r : Reminder, (g r).id = r.id)
    (hfix : ∀ r : Reminder, r.id = qid → g r = r)
    (store : List Reminder) :
    (store.map g).filter (fun x => x.id == qid)
      = store.filter (fun x => x.id == qid) := by
  induction store with
  | nil => rfl
  | cons a rest ih =>
    simp only [List.map_cons, List.filter_cons]
    by_cases hq : a.id = qid
    · have h1 : ((g a).id == qid) = true := by
        rw [hid a, hq]
        exact beq_self_eq_true qid
      have h2 : (a.id == qid) = true := by
        rw [hq]
        exact beq_self_eq_true qid
      rw [h1, h2]
      simp only [if_pos]
      rw [hfix a hq, ih]
    · have h1 : ((g a).id == qid) = false := by
        rw [hid a]
        exact beq_eq_false_iff_ne.mpr hq
      have h2 : (a.id == qid) = false := beq_eq_false_iff_ne.mpr hq
      rw [h1, h2]
      simp only [Bool.false_eq_true, if_false]
      exact ih

theorem uset_filter (store : List Reminder) (rid uid qid : Nat) (h : rid ≠ qid) :
    (update_set_inactive store rid uid).filter (fun x => x.id == qid)
      = store.filter (fun x => x.id == qid) := by
  refine filter_id_map _ qid ?_ ?_ store
  · intro r
    dsimp only
    split <;> rfl
  · intro r hq
    dsimp only
    rw [if_neg]
    intro hc
    exact h (hc.1 ▸ hq)

theorem processDueNew_filter_id (now : PyDateTime) (sendOk : Reminder → Bool)
    (qid : Nat) (todo : List Reminder) :
    ∀ store : List Reminder,
    (∀ x ∈ todo, sendOk x = true → x.id ≠ qid) →
    (processDueNew now sendOk todo store).filter (fun x => x.id == qid)
      = store.filter (fun x => x.id == qid) := by
  induction todo with
  | nil =>
    intro store h
    rfl
  | cons r rest ih =>
    intro store h
    show (processDueNew now sendOk rest _).filter _ = _
    rw [ih _ (fun x hx => h x (List.mem_cons_of_mem r hx))]
    split
    · split
      · rename_i hsend
        exact uset_filter store r.id r.user_id qid (h r (List.mem_cons_self r rest) hsend)
      · rfl
    · rfl

theorem nodup_filter_id_singleton (store : List Reminder) (r : Reminder)
    (hnd : (store.map Reminder.id).Nodup) (hr : r ∈ store) :
    store.filter (fun x => x.id == r.id) = [r] := by
  induction store with
  | nil => cases hr
  | cons a rest ih =>
    rw [List.map_cons, List.nodup_cons] at hnd
    obtain ⟨hna, hnr⟩ := hnd
    rcases List.mem_cons.mp hr with rfl | hmem
    · simp only [List.filter_cons, beq_self_eq_true, if_pos]
      have hnil : rest.filter (fun x => x.id == r.id) = [] := by
        rw [List.filter_eq_nil_iff]
        intro x hx hbeq
        exact hna (beq_iff_eq.mp hbeq ▸ List.mem_map_of_mem Reminder.id hx)
      rw [hnil]
    · have hne : a.id ≠ r.id := by
        intro he
        exact hna (he ▸ List.mem_map_of_mem Reminder.id hmem)
      simp only [List.filter_cons]
      rw [show (a.id == r.id) = false from beq_eq_false_iff_ne.mpr hne]
      simp only [Bool.false_eq_true, if_false]
      exact ih hnr hmem

/-- C8: when the dispatch of a due reminder fails, the current scheduler
performs no store update for it in that tick: the unique row with its id
keeps every field exactly as it was, and the same reminder is returned by
the due-reminders query again at any later poll instant. -/
theorem C8_dispatch_failure_leaves_reminder (store : List Reminder)
    (now now2 : PyDateTime) (sendOk : Reminder → Bool) (r : Reminder)
    (hnd : (store.map Reminder.id).Nodup)
    (hr : r ∈ get_active_reminders store now)
    (hf : sendOk r = false)
    (hle : dtLe now now2) :
    (∀ x ∈ reminder_scheduler_tick store now sendOk, x.id = r.id → x = r)
    ∧ r ∈ get_active_reminders (reminder_scheduler_tick store now sendOk) now2 := by
  have hrs : r ∈ store := List.mem_of_mem_filter hr
  have hprops := List.of_mem_filter hr
  simp only [Bool.and_eq_true, decide_eq_true_eq] at hprops
  have hinj : ∀ x ∈ get_active_reminders store now, sendOk x = true → x.id ≠ r.id := by
    intro x hx htrue hid
    have hxs : x ∈ store := List.mem_of_mem_filter hx
    have hxr : x = r := by
      have := List.inj_on_of_nodup_map hnd
      exact this hxs hrs hid
    rw [hxr, hf] at htrue
    cases htrue
  have hfeq : (reminder_scheduler_tick store now sendOk).filter
      (fun x => x.id == r.id) = [r] := by
    unfold reminder_scheduler_tick
    rw [processDueNew_filter_id now sendOk r.id (get_active_reminders store now)
      store hinj]
    exact nodup_filter_id_singleton store r hnd hrs
  constructor
  · intro x hx hid
    have hmemf : x ∈ (reminder_scheduler_tick store now sendOk).filter
        (fun y => y.id == r.id) :=
      List.mem_filter.mpr ⟨hx, beq_iff_eq.mpr hid⟩
    rw [hfeq] at hmemf
    exact List.mem_singleton.mp hmemf
  · have hrt : r ∈ reminder_scheduler_tick store now sendOk := by
      have : r ∈ (reminder_scheduler_tick store now sendOk).filter
          (fun y => y.id == r.id) := by
        rw [hfeq]
        exact List.mem_singleton.mpr rfl
      exact List.mem_of_mem_filter this
    refine List.mem_filter.mpr ⟨hrt, ?_⟩
    simp only [Bool.and_eq_true, decide_eq_true_eq]
    exact ⟨hprops.1, dtLe_trans _ _ _ hprops.2 hle⟩

theorem C8_witness :
    (⟨1, 7, "a", "b", ⟨2024, 5, 15, 9, 0, 0, 0⟩, true, "none", 0⟩ : Reminder) ∈
      get_active_reminders
        (reminder_scheduler_tick
          [⟨1, 7, "a", "b", ⟨2024, 5, 15, 9, 0, 0, 0⟩, true, "none", 0⟩]
          ⟨2024, 5, 15, 10, 0, 0, 0⟩ (fun _ => false))
        ⟨2024, 5, 15, 11, 0, 0, 0⟩ :=
  (C8_dispatch_failure_leaves_reminder
    [⟨1, 7, "a", "b", ⟨2024, 5, 15, 9, 0, 0, 0⟩, true, "none", 0⟩]
    ⟨2024, 5, 15, 10, 0, 0, 0⟩ ⟨2024, 5, 15, 11, 0, 0, 0⟩ (fun _ => false)
    ⟨1, 7, "a", "b", ⟨2024, 5, 15, 9, 0, 0, 0⟩, true, "none", 0⟩
    (by decide) (by decide) rfl (by decide)).2

/-! The time-expression parser of src/time_utils.py, class TimeParser.
Each Python regular expression is translated into a scanning function on
the character list with Python re semantics: the search tries every
position left to right, alternatives and greedy quantifier lengths are
tried in regex backtracking order, the first success wins. -/

/-- Numeric value of an ASCII digit character. -/
def digitVal (c : Char) : Nat :=
  c.toNat - 48

/-- Python regex whitespace class on the text the parser sees. -/
def isSpaceCh (c : Char) : Bool :=
  c = ' ' || c = '\t' || c = '\n' || c = '\r' || c = '\x0b' || c = '\x0c'

/-- Python `str.strip`. -/
def stripList (l : List Char) : List Char :=
  ((l.dropWhile isSpaceCh).reverse.dropWhile isSpaceCh).reverse

/-- The whitespace collapse the parser applies up front:
Python re.sub of one-or-more whitespace with a single space. -/
def collapseSpaces : List Char → List Char
  | [] => []
  | [c] => [if isSpaceCh c then ' ' else c]
  | c1 :: c2 :: rest =>
    if isSpaceCh c1 && isSpaceCh c2 then collapseSpaces (c2 :: rest)
    else (if isSpaceCh c1 then ' ' else c1) :: collapseSpaces (c2 :: rest)

/-- The text normalization at the top of `TimeParser.parse_time`:
lower, strip, collapse whitespace runs. -/
def normalizeText (l : List Char) : List Char :=
  collapseSpaces (stripList (l.map pyLowerChar))

/-- Case-insensitive literal match at the current position: the pattern is
given lowercase, the input character is lowered before comparing; returns
the rest of the input after the literal. -/
def litAt : List Char → List Char → Option (List Char)
  | [], cs => some cs
  | _ :: _, [] => none
  | p :: ps, c :: rest => if pyLowerChar c = p then litAt ps rest else none

/-- First alternative that matches, in order: regex alternation. -/
def firstSome {α β : Type} : List α → (α → Option β) → Option β
  | [], _ => none
  | a :: rest, f =>
    match f a with
    | some b => some b
    | none => firstSome rest f

/-- The backtracking alternatives of a one-or-two-digit greedy group:
two digits first, then one. -/
def digits12 : List Char → List (Nat × List Char)
  | [] => []
  | [a] => if a.isDigit then [(digitVal a, [])] else []
  | a :: b :: rest =>
    if a.isDigit then
      if b.isDigit then
        [(digitVal a * 10 + digitVal b, rest), (digitVal a, b :: rest)]
      else [(digitVal a, b :: rest)]
    else []

/-- Exactly `k` digits. -/
def digitsExact : Nat → Nat → List Char → Option (Nat × List Char)
  | 0, acc, cs => some (acc, cs)
  | _ + 1, _, [] => none
  | k + 1, acc, c :: rest =>
    if c.isDigit then digitsExact k (acc * 10 + digitVal c) rest else none

/-- Greedy run of further digits. -/
def digitsTake : Nat → List Char → Nat × List Char
  | acc, [] => (acc, [])
  | acc, c :: rest =>
    if c.isDigit then digitsTake (acc * 10 + digitVal c) rest else (acc, c :: rest)

/-- One-or-more digits, greedy. -/
def digits1 : List Char → Option (Nat × List Char)
  | c :: rest => if c.isDigit then some (digitsTake (digitVal c) rest) else none
  | [] => none

/-- One-or-more whitespace characters, greedy. -/
def spaces1 : List Char → Option (List Char)
  | c :: rest => if isSpaceCh c then some (rest.dropWhile isSpaceCh) else none
  | [] => none

/-- re.search: try the position matcher at every suffix, left to right. -/
def scanFor {β : Type} (tryAt : List Char → Option β) : List Char → Option β
  | [] => none
  | l@(_ :: rest) =>
    match tryAt l with
    | some b => some b
    | none => scanFor tryAt rest

/-- Substring containment (Python `in` on the already-lowered text). -/
def containsLit (w : List Char) (cs : List Char) : Bool :=
  match scanFor (fun l => litAt w l) cs with
  | some _ => true
  | none => false

/-- A matched relative-time expression of `_parse_relative_time`, before
its handler is applied to the base time. -/
inductive RelExpr where
  | units : Nat → String → RelExpr
  | tomorrow : RelExpr
  | afterTomorrow : RelExpr
  | today : RelExpr
deriving DecidableEq

/-- The unit alternation of the relative patterns, in the source's
alternative order (first match wins, so the stem of an inflected form can
match first: the handler buckets below make the same decision for every
alternative sharing a stem). -/
def unitWords : List String :=
  ["минут", "минуту", "минуты", "час", "часа", "часов",
   "день", "дня", "дней", "неделю", "недели", "недель"]

/-- The unit word matched at the current position, if any. -/
def tryUnitAlt (cs : List Char) : Option (String × List Char) :=
  firstSome unitWords (fun w =>
    match litAt w.data cs with
    | some rest => some (w, rest)
    | none => none)

/-- First relative pattern at one position: the word for across, spaces,
a number, spaces, a unit. -/
def tryCherezAt (cs : List Char) : Option (Nat × String) :=
  match litAt "через".data cs with
  | none => none
  | some r1 =>
    match spaces1 r1 with
    | none => none
    | some r2 =>
      match digits1 r2 with
      | none => none
      | some (n, r3) =>
        match spaces1 r3 with
        | none => none
        | some r4 =>
          match tryUnitAlt r4 with
          | none => none
          | some (w, _) => some (n, w)

/-- Second relative pattern at one position: a number, spaces, a unit. -/
def tryNumUnitAt (cs : List Char) : Option (Nat × String) :=
  match digits1 cs with
  | none => none
  | some (n, r1) =>
    match spaces1 r1 with
    | none => none
    | some r2 =>
      match tryUnitAlt r2 with
      | none => none
      | some (w, _) => some (n, w)

/-- `_parse_relative_time` pattern matching, in the source's pattern order
(the plain tomorrow literal is tried before the day-after-tomorrow one, and
it also matches inside the longer word). -/
def parseRelCore (t : List Char) : Option RelExpr :=
  match scanFor tryCherezAt t with
  | some (n, w) => some (.units n w)
  | none =>
    match scanFor tryNumUnitAt t with
    | some (n, w) => some (.units n w)
    | none =>
      if containsLit "завтра".data t then some .tomorrow
      else if containsLit "послезавтра".data t then some .afterTomorrow
      else if containsLit "сегодня".data t then some .today
      else none

/-- The relative handlers: `_parse_relative_units` unit buckets and the
lambdas for the named days (tomorrow adds one day keeping the time of day,
today pins 09:00 zeroing seconds and microseconds). -/
def applyRel (e : RelExpr) (bt : PyDateTime) : PyDateTime :=
  match e with
  | .units n w =>
    if w ∈ ["минут", "минуту", "минуты"] then addMinutes bt n
    else if w ∈ ["час", "часа", "часов"] then addMinutes bt (60 * n)
    else if w ∈ ["день", "дня", "дней"] then addMinutes bt (1440 * n)
    else if w ∈ ["неделю", "недели", "недель"] then addMinutes bt (10080 * n)
    else bt
  | .tomorrow => addMinutes bt 1440
  | .afterTomorrow => addMinutes bt 2880
  | .today => { bt with hour := 9, minute := 0, second := 0, microsecond := 0 }

/-- `datetime(year, month, day, hour, minute)` as the parser constructs
it: some value when every field is in range, none for the ValueError. -/
def mkDateTime (y mo d h mi : Nat) : Option PyDateTime :=
  if 1 ≤ y ∧ y ≤ 9999 ∧ 1 ≤ mo ∧ mo ≤ 12 ∧ 1 ≤ d ∧ d ≤ daysInMonth y mo
      ∧ h ≤ 23 ∧ mi ≤ 59 then
    some ⟨y, mo, d, h, mi, 0, 0⟩
  else none

/-- The hour-colon-minutes tail shared by the absolute patterns (and the
whole of the bare clock-time pattern): one-or-two digits, a colon, exactly
two digits. -/
def tryTailHM (r : List Char) : Option (Nat × Nat) :=
  firstSome (digits12 r) (fun p =>
    match p.2 with
    | c :: r2 =>
      if c = ':' then
        (match digitsExact 2 0 r2 with
         | some (mi, _) => some (p.1, mi)
         | none => none)
      else none
    | [] => none)

/-- The optional group before the clock-time tail (the preposition letter
plus spaces), greedy: try with it first, fall back to the tail alone. -/
def tryOptV (r : List Char) : Option (Nat × Nat) :=
  match litAt "в".data r with
  | some rv =>
    (match spaces1 rv with
     | some rw =>
       (match tryTailHM rw with
        | some g => some g
        | none => tryTailHM r)
     | none => tryTailHM r)
  | none => tryTailHM r

/-- Pattern day dot month dot four-digit-year, spaces, optional
preposition, clock time: the first absolute pattern, at one position. -/
def tryP1At (cs : List Char) : Option (Nat × Nat × Nat × Nat × Nat) :=
  firstSome (digits12 cs) (fun pd =>
    match pd.2 with
    | '.' :: r2 =>
      firstSome (digits12 r2) (fun pm =>
        match pm.2 with
        | '.' :: r4 =>
          (match digitsExact 4 0 r4 with
           | some (y, r5) =>
             (match spaces1 r5 with
              | some r6 =>
                (match tryOptV r6 with
                 | some (h, mi) => some (pd.1, pm.1, y, h, mi)
                 | none => none)
              | none => none)
           | none => none)
        | _ => none)
    | _ => none)

/-- Pattern day dot month, spaces, optional preposition, clock time: the
second absolute pattern, at one position. -/
def tryP2At (cs : List Char) : Option (Nat × Nat × Nat × Nat) :=
  firstSome (digits12 cs) (fun pd =>
    match pd.2 with
    | '.' :: r2 =>
      firstSome (digits12 r2) (fun pm =>
        match spaces1 pm.2 with
        | some r4 =>
          (match tryOptV r4 with
           | some (h, mi) => some (pd.1, pm.1, h, mi)
           | none => none)
        | none => none)
    | _ => none)

/-- Pattern day dot month dot four-digit-year: the fourth absolute
pattern, at one position. -/
def tryP4At (cs : List Char) : Option (Nat × Nat × Nat) :=
  firstSome (digits12 cs) (fun pd =>
    match pd.2 with
    | '.' :: r2 =>
      firstSome (digits12 r2) (fun pm =>
        match pm.2 with
        | '.' :: r4 =>
          (match digitsExact 4 0 r4 with
           | some (y, _) => some (pd.1, pm.1, y)
           | none => none)
        | _ => none)
    | _ => none)

/-- Pattern day dot month: the fifth absolute pattern, at one position. -/
def tryP5At (cs : List Char) : Option (Nat × Nat) :=
  firstSome (digits12 cs) (fun pd =>
    match pd.2 with
    | '.' :: r2 =>
      firstSome (digits12 r2) (fun pm => some (pd.1, pm.1))
    | _ => none)

/-- The searches of the five absolute patterns over the whole text. -/
def searchP1 (t : List Char) : Option (Nat × Nat × Nat × Nat × Nat) :=
  scanFor tryP1At t

def searchP2 (t : List Char) : Option (Nat × Nat × Nat × Nat) :=
  scanFor tryP2At t

def searchP3 (t : List Char) : Option (Nat × Nat) :=
  scanFor tryTailHM t

def searchP4 (t : List Char) : Option (Nat × Nat × Nat) :=
  scanFor tryP4At t

def searchP5 (t : List Char) : Option (Nat × Nat) :=
  scanFor tryP5At t

/-- The colon test the branch dispatch of `_parse_absolute_time` applies
to the whole (normalized) text to tell the bare clock-time pattern from
the bare date pattern, both of which produce two groups. -/
def hasColon (t : List Char) : Bool :=
  t.contains ':'

/-- ValueError propagation of `datetime(...)`. -/
def liftMk (o : Option PyDateTime) : Except Unit (Option PyDateTime) :=
  match o with
  | some t => Except.ok (some t)
  | none => Except.error ()

/-- The bare clock-time branch of `_parse_absolute_time`: roll the date
forward one day when the parsed clock time is not strictly later than the
base's, then combine with the time built by `time.replace` (which raises
for an out-of-range hour or minute; seconds and microseconds are zero). -/
def hhmmBranch (h mi : Nat) (base : PyDateTime) : Except Unit (Option PyDateTime) :=
  if h ≤ 23 ∧ mi ≤ 59 then
    (if h < base.hour ∨ (h = base.hour ∧ mi ≤ base.minute) then
      Except.ok (some ⟨(addDaysDate base.dateOf 1).year, (addDaysDate base.dateOf 1).month,
        (addDaysDate base.dateOf 1).day, h, mi, 0, 0⟩)
    else
      Except.ok (some ⟨base.year, base.month, base.day, h, mi, 0, 0⟩))
  else Except.error ()

/-- The bare date branch of `_parse_absolute_time`: the date at 09:00 in
the base's year, rolled to the next year when strictly before the base
instant (the roll can itself raise, for Feb 29). -/
def ddmmBranch (d mo : Nat) (base : PyDateTime) : Except Unit (Option PyDateTime) :=
  match mkDateTime base.year mo d 9 0 with
  | none => Except.error ()
  | some t0 =>
    if dtLt t0 base then
      (match mkDateTime (base.year + 1) mo d 9 0 with
       | none => Except.error ()
       | some t1 => Except.ok (some t1))
    else Except.ok (some t0)

/-- `TimeParser._parse_absolute_time`: the five patterns in order, with
the source's dispatch on group count; the two-group case consults the
colon test on the whole text, so a bare date in a text containing a colon
elsewhere is read as a clock time. -/
def parseAbsoluteTime (t : List Char) (base : PyDateTime) :
    Except Unit (Option PyDateTime) :=
  match searchP1 t with
  | some (d, mo, y, h, mi) => liftMk (mkDateTime y mo d h mi)
  | none =>
    match searchP2 t with
    | some (d, mo, h, mi) => liftMk (mkDateTime base.year mo d h mi)
    | none =>
      match searchP3 t with
      | some (h, mi) =>
        if hasColon t then hhmmBranch h mi base else ddmmBranch h mi base
      | none =>
        match searchP4 t with
        | some (d, mo, y) => liftMk (mkDateTime y mo d 9 0)
        | none =>
          match searchP5 t with
          | some (d, mo) =>
            if hasColon t then hhmmBranch d mo base else ddmmBranch d mo base
          | none => Except.ok none

/-- The weekday dictionary of `_parse_weekday`, in insertion order. -/
def weekdayNames : List (String × Nat) :=
  [("понедельник", 0), ("вторник", 1), ("среда", 2), ("четверг", 3),
   ("пятница", 4), ("суббота", 5), ("воскресенье", 6)]

/-- Python `date.weekday()`: Monday is 0; ordinal 1 was a Monday. -/
def pyWeekday (d : PyDate) : Nat :=
  (d.toOrdinal - 1) % 7

/-- First weekday name contained in the text. -/
def parseWeekdayCore (t : List Char) : Option Nat :=
  firstSome weekdayNames (fun p =>
    if containsLit p.1.data t then some p.2 else none)

/-- The `_parse_weekday` handler: days ahead to the next such weekday
(a full week when today is the named day), then pin 09:00. -/
def applyWeekday (i : Nat) (bt : PyDateTime) : PyDateTime :=
  let w := pyWeekday bt.dateOf
  let da := if i > w then i - w else i + 7 - w
  let moved := addMinutes bt (1440 * da)
  { moved with hour := 9, minute := 0, second := 0, microsecond := 0 }

/-- `TimeParser.parse_time` after base-time resolution: normalize the
text, then relative patterns, then absolute patterns (whose ValueError
propagates), then weekdays. -/
def parse_time_base (text : List Char) (base : PyDateTime) :
    Except Unit (Option PyDateTime) :=
  match parseRelCore (normalizeText text) with
  | some e => Except.ok (some (applyRel e base))
  | none =>
    match parseAbsoluteTime (normalizeText text) base with
    | Except.error e => Except.error e
    | Except.ok (some dt) => Except.ok (some dt)
    | Except.ok none =>
      match parseWeekdayCore (normalizeText text) with
      | some i => Except.ok (some (applyWeekday i base))
      | none => Except.ok none

/-- `TimeParser.parse_time(text, base_time=None)`: the `now` argument is
the ambient clock `datetime.now(self.timezone)` the method reads when no
base time is passed. -/
def parse_time (text : String) (base_opt : Option PyDateTime)
    (now : PyDateTime) : Except Unit (Option PyDateTime) :=
  parse_time_base text.data (base_opt.getD now)

/-! `parse_time_input` of src/time_utils.py: five extraction patterns
searched case-insensitively over the original text; the matched fragment
is handed to `TimeParser.parse_time` with no base time (so the ambient
clock), and on a successful parse every occurrence of the fragment is
removed from the text.  A pattern that matches but fails to parse falls
through to the next pattern. -/

/-- Matcher position step returning the matched slice of the original
text (group 0, which for these patterns equals group 1). -/
def scanSlice (tryAt : List Char → Option (List Char)) :
    List Char → Option (List Char)
  | [] => none
  | l@(_ :: rest) =>
    match tryAt l with
    | some rem => some (l.take (l.length - rem.length))
    | none => scanSlice tryAt rest

/-- Extraction pattern 1, clock time, at one position. -/
def tryI1At (cs : List Char) : Option (List Char) :=
  firstSome (digits12 cs) (fun p =>
    match p.2 with
    | ':' :: r2 =>
      (match digitsExact 2 0 r2 with
       | some (_, rem) => some rem
       | none => none)
    | _ => none)

/-- Extraction pattern 2, date with optional four-digit year (greedy), at
one position. -/
def tryI2At (cs : List Char) : Option (List Char) :=
  firstSome (digits12 cs) (fun pd =>
    match pd.2 with
    | '.' :: r2 =>
      firstSome (digits12 r2) (fun pm =>
        match pm.2 with
        | '.' :: r4 =>
          (match digitsExact 4 0 r4 with
           | some (_, rem) => some rem
           | none => some pm.2)
        | _ => some pm.2)
    | _ => none)

/-- Extraction pattern 3, relative offset with the singular unit
alternation of this pattern, at one position. -/
def tryI3At (cs : List Char) : Option (List Char) :=
  match litAt "через".data cs with
  | none => none
  | some r1 =>
    match spaces1 r1 with
    | none => none
    | some r2 =>
      match digits1 r2 with
      | none => none
      | some (_, r3) =>
        match spaces1 r3 with
        | none => none
        | some r4 =>
          firstSome ["минут", "час", "день", "неделю"] (fun w =>
            match litAt w.data r4 with
            | some rem => some rem
            | none => none)

/-- Extraction pattern 4, the named-day alternation, at one position
(alternatives tried at the same position before advancing, so the
day-after-tomorrow word is matched whole here). -/
def tryI4At (cs : List Char) : Option (List Char) :=
  firstSome ["завтра", "послезавтра", "сегодня"] (fun w =>
    match litAt w.data cs with
    | some rem => some rem
    | none => none)

/-- Extraction pattern 5, preposition plus accusative weekday name, at one
position. -/
def tryI5At (cs : List Char) : Option (List Char) :=
  match litAt "в".data cs with
  | none => none
  | some r1 =>
    match spaces1 r1 with
    | none => none
    | some r2 =>
      firstSome ["понедельник", "вторник", "среду", "четверг",
          "пятницу", "субботу", "воскресенье"] (fun w =>
        match litAt w.data r2 with
        | some rem => some rem
        | none => none)

def searchI1 (t : List Char) : Option (List Char) := scanSlice tryI1At t

def searchI2 (t : List Char) : Option (List Char) := scanSlice tryI2At t

def searchI3 (t : List Char) : Option (List Char) := scanSlice tryI3At t

def searchI4 (t : List Char) : Option (List Char) := scanSlice tryI4At t

def searchI5 (t : List Char) : Option (List Char) := scanSlice tryI5At t

/-- Exact (case-sensitive) prefix test, for Python `str.replace`. -/
def startsWithList : List Char → List Char → Bool
  | [], _ => true
  | _ :: _, [] => false
  | p :: ps, c :: rest => p == c && startsWithList ps rest

/-- Python `text.replace(pat, "")`: removes every occurrence; the fuel is
the text length, which bounds the recursion since every matched pattern
here is nonempty. -/
def replaceAllAux (pat : List Char) : Nat → List Char → List Char
  | _, [] => []
  | 0, l => l
  | fuel + 1, c :: rest =>
    if startsWithList pat (c :: rest) && decide (0 < pat.length) then
      replaceAllAux pat fuel ((c :: rest).drop pat.length)
    else c :: replaceAllAux pat fuel rest

def replaceAll (l pat : List Char) : List Char :=
  replaceAllAux pat l.length l

/-- One extraction pattern step of `parse_time_input`: no match means try
the next pattern; a match is parsed with no base time (ambient clock
`now`), a parse failure's exception propagates, a parsed time returns with
the match stripped from the text, and a None parse also falls through to
the next pattern. -/
def stepInput (m : Option (List Char)) (text : List Char) (now : PyDateTime)
    (next : Except Unit (Option PyDateTime × String)) :
    Except Unit (Option PyDateTime × String) :=
  match m with
  | none => next
  | some mt =>
    match parse_time ⟨mt⟩ none now with
    | Except.error e => Except.error e
    | Except.ok (some dt) => Except.ok (some dt, ⟨stripList (replaceAll text mt)⟩)
    | Except.ok none => next

/-- src/time_utils.py `parse_time_input(text)`: the five extraction
patterns in order; `now` is the ambient clock that `TimeParser.parse_time`
reads because `parse_time_input` never passes a base time. -/
def parse_time_input (text : String) (now : PyDateTime) :
    Except Unit (Option PyDateTime × String) :=
  stepInput (searchI1 text.data) text.data now
    (stepInput (searchI2 text.data) text.data now
      (stepInput (searchI3 text.data) text.data now
        (stepInput (searchI4 text.data) text.data now
          (stepInput (searchI5 text.data) text.data now
            (Except.ok (none, text))))))

/-! Facts about the matchers, used to characterize which branch the
parser dispatch takes. -/

theorem firstSome_eq_some {α β : Type} (l : List α) (f : α → Option β) (b : β)
    (hfs : firstSome l f = some b) : ∃ a, a ∈ l ∧ f a = some b := by
  induction l with
  | nil => simp [firstSome] at hfs
  | cons x rest ih =>
    unfold firstSome at hfs
    split at hfs
    · rename_i v heq
      exact ⟨x, List.mem_cons_self x rest, by rw [heq, hfs]⟩
    · obtain ⟨a, ha, hfa⟩ := ih hfs
      exact ⟨a, List.mem_cons_of_mem x ha, hfa⟩

theorem digits12_rest (l : List Char) (p : Nat × List Char)
    (hp : p ∈ digits12 l) : ∃ k, p.2 = l.drop k := by
  rcases l with _ | ⟨a, _ | ⟨b, rest⟩⟩
  · simp [digits12] at hp
  · simp only [digits12] at hp
    split at hp
    · simp only [List.mem_singleton] at hp
      exact ⟨1, by rw [hp]; rfl⟩
    · simp at hp
  · simp only [digits12] at hp
    split at hp
    · split at hp
      · simp only [List.mem_cons, List.mem_singleton, List.not_mem_nil, or_false] at hp
        rcases hp with hp | hp
        · exact ⟨2, by rw [hp]; rfl⟩
        · exact ⟨1, by rw [hp]; rfl⟩
      · simp only [List.mem_singleton] at hp
        exact ⟨1, by rw [hp]; rfl⟩
    · simp at hp

theorem tryTailHM_colon (l : List Char) (p : Nat × Nat)
    (h : tryTailHM l = some p) : ':' ∈ l := by
  obtain ⟨a, ha, hfa⟩ := firstSome_eq_some _ _ _ h
  rcases hrest : a.2 with _ | ⟨c, r2⟩
  · rw [hrest] at hfa
    simp at hfa
  · rw [hrest] at hfa
    by_cases hc : c = ':'
    · subst hc
      obtain ⟨k, hk⟩ := digits12_rest l a ha
      rw [hrest] at hk
      exact List.drop_subset k l (hk ▸ List.mem_cons_self ':' r2)
    · dsimp only at hfa
      rw [if_neg hc] at hfa
      cases hfa

theorem searchP3_colon (t : List Char) (p : Nat × Nat)
    (h : searchP3 t = some p) : hasColon t = true := by
  have hmem : ':' ∈ t := by
    induction t with
    | nil => simp [searchP3, scanFor] at h
    | cons c rest ih =>
      unfold searchP3 scanFor at h
      split at h
      · rename_i b heq
        exact tryTailHM_colon (c :: rest) b heq
      · exact List.mem_cons_of_mem c (ih h)
  unfold hasColon
  exact List.elem_eq_true_of_mem hmem

/-! Unfold equations for the parse pipeline, conditioned on the matcher
results. -/

theorem parse_time_base_of_abs_some (text : List Char) (base : PyDateTime)
    (dt : PyDateTime)
    (hrel : parseRelCore (normalizeText text) = none)
    (habs : parseAbsoluteTime (normalizeText text) base = Except.ok (some dt)) :
    parse_time_base text base = Except.ok (some dt) := by
  unfold parse_time_base
  rw [hrel, habs]

theorem parse_time_base_of_abs_err (text : List Char) (base : PyDateTime)
    (hrel : parseRelCore (normalizeText text) = none)
    (habs : parseAbsoluteTime (normalizeText text) base = Except.error ()) :
    parse_time_base text base = Except.error () := by
  unfold parse_time_base
  rw [hrel, habs]

theorem parseAbsoluteTime_P3 (t : List Char) (base : PyDateTime) (h mi : Nat)
    (hp1 : searchP1 t = none) (hp2 : searchP2 t = none)
    (hp3 : searchP3 t = some (h, mi)) :
    parseAbsoluteTime t base =
      (if hasColon t then hhmmBranch h mi base else ddmmBranch h mi base) := by
  unfold parseAbsoluteTime
  rw [hp1, hp2, hp3]

theorem hhmmBranch_ok_later (h mi : Nat) (base : PyDateTime)
    (hh : h ≤ 23) (hmi : mi ≤ 59)
    (hlater : ¬(h < base.hour ∨ (h = base.hour ∧ mi ≤ base.minute))) :
    hhmmBranch h mi base
      = Except.ok (some ⟨base.year, base.month, base.day, h, mi, 0, 0⟩) := by
  unfold hhmmBranch
  rw [if_pos ⟨hh, hmi⟩, if_neg hlater]

theorem hhmmBranch_ok_roll (h mi : Nat) (base : PyDateTime)
    (hh : h ≤ 23) (hmi : mi ≤ 59)
    (hroll : h < base.hour ∨ (h = base.hour ∧ mi ≤ base.minute)) :
    hhmmBranch h mi base
      = Except.ok (some ⟨(nextDate base.dateOf).year, (nextDate base.dateOf).month,
          (nextDate base.dateOf).day, h, mi, 0, 0⟩) := by
  unfold hhmmBranch
  rw [if_pos ⟨hh, hmi⟩, if_pos hroll]
  rfl

theorem hhmmBranch_err (h mi : Nat) (base : PyDateTime)
    (hout : ¬(h ≤ 23 ∧ mi ≤ 59)) :
    hhmmBranch h mi base = Except.error () := by
  unfold hhmmBranch
  rw [if_neg hout]

/-- Decidable equality on parse results, for evaluating the parser at
concrete inputs. -/
instance {α : Type} [DecidableEq α] : DecidableEq (Except Unit α) := fun a b =>
  match a, b with
  | .error u, .error v => isTrue (by cases u; cases v; rfl)
  | .error _, .ok _ => isFalse (fun hc => Except.noConfusion hc)
  | .ok _, .error _ => isFalse (fun hc => Except.noConfusion hc)
  | .ok x, .ok y =>
    if hxy : x = y then isTrue (by rw [hxy]) else isFalse (fun hc => hxy (Except.ok.inj hc))

/-- C7: for every input in which none of the extraction patterns of
`parse_time_input` matches, and every clock instant, the function returns
exactly no resolved time together with the original text unchanged. -/
theorem C7_unmatched_text_identity (text : String) (now : PyDateTime)
    (h1 : searchI1 text.data = none) (h2 : searchI2 text.data = none)
    (h3 : searchI3 text.data = none) (h4 : searchI4 text.data = none)
    (h5 : searchI5 text.data = none) :
    parse_time_input text now = Except.ok (none, text) := by
  unfold parse_time_input
  rw [h1, h2, h3, h4, h5]
  rfl

theorem C7_witness :
    searchI1 "привет мир".data = none ∧
    parse_time_input "привет мир" ⟨2024, 5, 15, 10, 0, 0, 0⟩
      = Except.ok (none, "привет мир") :=
  ⟨by decide,
    C7_unmatched_text_identity "привет мир" ⟨2024, 5, 15, 10, 0, 0, 0⟩
      (by decide) (by decide) (by decide) (by decide) (by decide)⟩

/-- C9 counterexample: parsing is not a pure function of (text, explicit
reference) as deployed: the reference parameter is optional, and when it
is omitted — which `parse_time_input` always does — the parser reads the
ambient clock, so the same text parses differently at two clock
instants. -/
theorem C9_counterexample_reads_clock :
    parse_time_input "завтра" ⟨2024, 5, 15, 10, 0, 0, 0⟩
      ≠ parse_time_input "завтра" ⟨2024, 5, 15, 16, 0, 0, 0⟩
    ∧ parse_time "завтра" none ⟨2024, 5, 15, 10, 0, 0, 0⟩
      ≠ parse_time "завтра" none ⟨2024, 5, 15, 16, 0, 0, 0⟩ := by
  constructor <;> decide

/-- C9 amended: when the caller does pass an explicit reference,
`parse_time` is a pure function of the text and that reference: the
ambient clock argument is never consulted. -/
theorem C9_amended_pure_given_reference (text : String) (base : PyDateTime)
    (now1 now2 : PyDateTime) :
    parse_time text (some base) now1 = parse_time text (some base) now2 := rfl

/-- C6 counterexample: parsing the tomorrow word with a reference at 15:00
resolves to the next day at 15:00, not at 09:00 — the source handler adds
one day and keeps the reference's time of day. -/
theorem C6_counterexample_tomorrow_keeps_time :
    parse_time "завтра" (some ⟨2024, 5, 15, 15, 0, 0, 0⟩) ⟨2024, 5, 15, 15, 0, 0, 0⟩
      = Except.ok (some ⟨2024, 5, 16, 15, 0, 0, 0⟩)
    ∧ (⟨2024, 5, 16, 15, 0, 0, 0⟩ : PyDateTime).hour ≠ 9 := by
  constructor <;> decide

/-- C6 amended: for every valid reference, parsing the tomorrow word
resolves to the reference plus exactly one day: the date ordinal advances
by one and the hour, minute and second of the reference are preserved
unchanged (so 09:00 only when the reference itself is at 09:00). -/
theorem C6_amended_tomorrow_plus_one_day (base now : PyDateTime)
    (hvalid : base.Valid) :
    parse_time "завтра" (some base) now = Except.ok (some (addMinutes base 1440))
    ∧ (addMinutes base 1440).toOrdinalDT = base.toOrdinalDT + 1
    ∧ (addMinutes base 1440).hour = base.hour
    ∧ (addMinutes base 1440).minute = base.minute
    ∧ (addMinutes base 1440).second = base.second := by
  obtain ⟨hd, hh, hmin, hs, hus⟩ := hvalid
  have habs := absMinutes_addMinutes base 1440 ⟨hd, hh, hmin, hs, hus⟩
  have hhour : (addMinutes base 1440).hour = base.hour := by
    unfold addMinutes
    dsimp only
    omega
  have hminu : (addMinutes base 1440).minute = base.minute := by
    unfold addMinutes
    dsimp only
    omega
  refine ⟨rfl, ?_, hhour, hminu, rfl⟩
  unfold absMinutes at habs
  rw [hhour, hminu] at habs
  omega

theorem C6_amended_witness :
    PyDateTime.Valid ⟨2024, 5, 15, 15, 0, 0, 0⟩ ∧
    parse_time "завтра" (some ⟨2024, 5, 15, 15, 0, 0, 0⟩) ⟨2024, 5, 15, 15, 0, 0, 0⟩
      = Except.ok (some (addMinutes ⟨2024, 5, 15, 15, 0, 0, 0⟩ 1440)) :=
  ⟨by decide,
    (C6_amended_tomorrow_plus_one_day ⟨2024, 5, 15, 15, 0, 0, 0⟩
      ⟨2024, 5, 15, 15, 0, 0, 0⟩ (by decide)).1⟩

/-- C5: for every valid reference and every text whose recognized content
is a bare clock time (no relative pattern, no dated pattern, the clock
pattern matched with in-range hour and minute), the parse resolves to that
clock time on the reference's day when it is strictly later than the
reference's clock time, and to the same clock time on the next calendar
day (ordinal + 1) when it is earlier than or equal to it. -/
theorem C5_bare_clock_rollforward (text : String) (base now : PyDateTime)
    (h mi : Nat) (hvalid : base.Valid)
    (hrel : parseRelCore (normalizeText text.data) = none)
    (hp1 : searchP1 (normalizeText text.data) = none)
    (hp2 : searchP2 (normalizeText text.data) = none)
    (hp3 : searchP3 (normalizeText text.data) = some (h, mi))
    (hh : h ≤ 23) (hmi : mi ≤ 59) :
    (base.hour < h ∨ (base.hour = h ∧ base.minute < mi) →
      parse_time text (some base) now
        = Except.ok (some ⟨base.year, base.month, base.day, h, mi, 0, 0⟩))
    ∧ (h < base.hour ∨ (h = base.hour ∧ mi ≤ base.minute) →
      parse_time text (some base) now
        = Except.ok (some ⟨(nextDate base.dateOf).year, (nextDate base.dateOf).month,
            (nextDate base.dateOf).day, h, mi, 0, 0⟩)
      ∧ (nextDate base.dateOf).toOrdinal = base.dateOf.toOrdinal + 1) := by
  have hcolon := searchP3_colon _ _ hp3
  have habs := parseAbsoluteTime_P3 (normalizeText text.data) base h mi hp1 hp2 hp3
  rw [hcolon] at habs
  have habs2 : parseAbsoluteTime (normalizeText text.data) base = hhmmBranch h mi base := by
    rw [habs]
    rfl
  constructor
  · intro hlater
    show parse_time_base text.data base = _
    refine parse_time_base_of_abs_some _ _ _ hrel ?_
    rw [habs2]
    exact hhmmBranch_ok_later h mi base hh hmi (by omega)
  · intro hearlier
    refine ⟨?_, toOrdinal_nextDate base.dateOf hvalid.1⟩
    show parse_time_base text.data base = _
    refine parse_time_base_of_abs_some _ _ _ hrel ?_
    rw [habs2]
    exact hhmmBranch_ok_roll h mi base hh hmi (by omega)

theorem C5_witness :
    parse_time "15:30" (some ⟨2024, 5, 15, 10, 0, 0, 0⟩) ⟨2024, 5, 15, 10, 0, 0, 0⟩
      = Except.ok (some ⟨2024, 5, 15, 15, 30, 0, 0⟩)
    ∧ parse_time "15:30" (some ⟨2024, 5, 15, 16, 0, 0, 0⟩) ⟨2024, 5, 15, 16, 0, 0, 0⟩
      = Except.ok (some ⟨2024, 5, 16, 15, 30, 0, 0⟩) :=
  ⟨(C5_bare_clock_rollforward "15:30" ⟨2024, 5, 15, 10, 0, 0, 0⟩
      ⟨2024, 5, 15, 10, 0, 0, 0⟩ 15 30 (by decide) (by decide) (by decide)
      (by decide) (by decide) (by decide) (by decide)).1 (by decide),
   ((C5_bare_clock_rollforward "15:30" ⟨2024, 5, 15, 16, 0, 0, 0⟩
      ⟨2024, 5, 15, 16, 0, 0, 0⟩ 15 30 (by decide) (by decide) (by decide)
      (by decide) (by decide) (by decide) (by decide)).2 (by decide)).1⟩

/-- C4 counterexample: an input matched by the clock pattern with hour 25
makes the parse raise (model: the error value), and the error escapes both
`parse_time` and its caller `parse_time_input` instead of being handled
like a non-match (which would be a normal result with no resolved
time). -/
theorem C4_counterexample_valueerror_escapes :
    parse_time_input "25:99" ⟨2024, 5, 15, 10, 0, 0, 0⟩ = Except.error ()
    ∧ parse_time "25:99" (some ⟨2024, 5, 15, 10, 0, 0, 0⟩) ⟨2024, 5, 15, 10, 0, 0, 0⟩
      = Except.error () := by
  constructor <;> decide

/-- C4 amended: a matched clock pattern with an out-of-range component is
never silently coerced — the ValueError from constructing the time raises —
but the parser has no handler for it: the failure escapes `parse_time`
(and hence `parse_time_input`) as an exception rather than being returned
to the caller as a non-match. -/
theorem C4_amended_out_of_range_raises (text : String) (base now : PyDateTime)
    (h mi : Nat)
    (hrel : parseRelCore (normalizeText text.data) = none)
    (hp1 : searchP1 (normalizeText text.data) = none)
    (hp2 : searchP2 (normalizeText text.data) = none)
    (hp3 : searchP3 (normalizeText text.data) = some (h, mi))
    (hout : 23 < h ∨ 59 < mi) :
    parse_time text (some base) now = Except.error () := by
  have hcolon := searchP3_colon _ _ hp3
  have habs := parseAbsoluteTime_P3 (normalizeText text.data) base h mi hp1 hp2 hp3
  rw [hcolon] at habs
  have habs2 : parseAbsoluteTime (normalizeText text.data) base = hhmmBranch h mi base := by
    rw [habs]
    rfl
  show parse_time_base text.data base = _
  refine parse_time_base_of_abs_err _ _ hrel ?_
  rw [habs2]
  exact hhmmBranch_err h mi base (by omega)

theorem C4_amended_witness :
    parse_time "27:15" (some ⟨2024, 5, 15, 10, 0, 0, 0⟩) ⟨2024, 5, 15, 10, 0, 0, 0⟩
      = Except.error () :=
  C4_amended_out_of_range_raises "27:15" ⟨2024, 5, 15, 10, 0, 0, 0⟩
    ⟨2024, 5, 15, 10, 0, 0, 0⟩ 27 15 (by decide) (by decide) (by decide)
    (by decide) (by decide)
